import Mathlib

/-!
# Verification of the GitHub follower-sync tool (src/main.py)

A shallow embedding of the pure logic of `main.py` into Lean 4:

* `load_list_file`   — the whitelist/blacklist loader (main.py, `load_list_file`);
  the file content is modelled as `Option (List String)` (`none` = absent file,
  `some lines` = the lines of the file, without trailing newlines, which are
  invisible to `strip`/`startswith("#")`).  Python returns a `set`; we return the
  list of retained canonical identifiers and characterise membership.
* `to_follow`, `to_unfollow` — the candidate computation loops of `sync_followers`
  (main.py lines 208–224), written as the same accumulate-into-a-list loops.
* `followPhase`, `unfollowPhase`, `runActions` — the action-execution loops of
  `sync_followers` (lines 231–267).  The remote calls are modelled by
  success functions `String → Bool`, the random delays by a stream `Nat → α`
  indexed by the number of attempts made so far; every attempt records a
  `(kind, user)` entry in `attempts` and the drawn delay in `slept`.
* `update_history` — the history append/truncate step (lines 269–283);
  Python `lst[-1000:]` is `lastN 1000`.
* `get_all_pages` — the pagination loop (lines 47–75); the sequence of HTTP
  responses for pages 1,2,… is modelled as a `List Page` of status + data
  (the data already projected to the login strings).
* `format_telegram_report` — the Telegram report builder (lines 145–175),
  modelled as the list of lines of the message (each `message += "...\n"`
  contributes one line, a bare `message += "\n"` contributes `""`).
* `send_telegram_message`, `sync_run` — the notification dispatch
  (lines 125–143 and 290–297); Python truthiness of the env variables is
  `truthy`, the try/except around the POST is an `Except` parameter.

Python's string primitives are embedded character-wise so that the kernel can
evaluate them: `lower` is `str.lower` (per-character lower-casing), `strip` is
`str.strip` (drop leading and trailing whitespace), `starts_with_hash` is
`str.startswith("#")`.
-/

/-- Python `s.lower()`: lower-case each character. -/
def lower (s : String) : String := String.mk (s.data.map Char.toLower)

/-- Python `s.strip()`: drop leading and trailing whitespace. -/
def strip (s : String) : String :=
  String.mk (((s.data.dropWhile Char.isWhitespace).reverse.dropWhile Char.isWhitespace).reverse)

/-- Python `s.startswith("#")`: the first character is `'#'`. -/
def starts_with_hash (s : String) : Bool :=
  match s.data with
  | [] => false
  | c :: _ => c == '#'

/-- Python truthiness of an optional environment string: `None` and `""` are falsy. -/
def truthy : Option String → Bool
  | none => false
  | some s => !s.data.isEmpty

/-- `load_list_file` (main.py 101–107): `none` = the file does not exist.
Keeps a line iff its stripped form is nonempty and the raw line does not start
with `"#"`; retained lines are stripped and lower-cased. -/
def load_list_file (content : Option (List String)) : List String :=
  match content with
  | none => []
  | some lines =>
      (lines.filter (fun line => !(strip line).data.isEmpty && !starts_with_hash line)).map
        (fun line => lower (strip line))

/-- The follow-candidate loop of `sync_followers` (main.py 213–217):
append `user` when its lower-cased form is neither in the lower-cased
`following` set nor in the blacklist. -/
def to_follow (followers following blacklist : List String) : List String :=
  let following_set := following.map lower
  followers.foldl
    (fun acc user =>
      if !(following_set.contains (lower user)) && !(blacklist.contains (lower user))
      then acc ++ [user] else acc)
    []

/-- The unfollow-candidate loop of `sync_followers` (main.py 220–224):
append `user` when its lower-cased form is neither in the lower-cased
`followers` set nor in the whitelist. -/
def to_unfollow (following followers whitelist : List String) : List String :=
  let followers_set := followers.map lower
  following.foldl
    (fun acc user =>
      if !(followers_set.contains (lower user)) && !(whitelist.contains (lower user))
      then acc ++ [user] else acc)
    []

/-- Both candidate lists, as computed by one run of `sync_followers`. -/
def compute_actions (followers following whitelist blacklist : List String) :
    List String × List String :=
  (to_follow followers following blacklist, to_unfollow following followers whitelist)

/-! ## Helper lemmas: the accumulate loops are filters -/

theorem contains_true_iff (l : List String) (a : String) : l.contains a = true ↔ a ∈ l := by
  simp

theorem foldl_append_filter (p : String → Bool) (l : List String) (acc : List String) :
    l.foldl (fun acc user => if p user then acc ++ [user] else acc) acc
      = acc ++ l.filter p := by
  induction l generalizing acc with
  | nil => simp
  | cons u rest ih =>
      by_cases h : p u
      · simp [List.foldl_cons, h, ih, List.filter_cons]
      · simp [List.foldl_cons, h, ih, List.filter_cons]

theorem to_follow_eq_filter (followers following blacklist : List String) :
    to_follow followers following blacklist
      = followers.filter (fun user =>
          !((following.map lower).contains (lower user))
            && !(blacklist.contains (lower user))) := by
  unfold to_follow
  exact foldl_append_filter _ followers []

theorem to_unfollow_eq_filter (following followers whitelist : List String) :
    to_unfollow following followers whitelist
      = following.filter (fun user =>
          !((followers.map lower).contains (lower user))
            && !(whitelist.contains (lower user))) := by
  unfold to_unfollow
  exact foldl_append_filter _ following []

/-! ## Claims C3, C10, C4 -/

/-- **C3.** `to_follow` is exactly the followers, in original order and case,
whose lower-cased form is neither in the lower-cased following set nor in the
deny-list; `to_unfollow` is exactly the following whose lower-cased form is
neither in the lower-cased followers set nor in the allow-list; and an
identifier present in both relations under differing case is neither followed
nor unfollowed. -/
theorem follow_unfollow_candidates_correct
    (followers following whitelist blacklist : List String) :
    to_follow followers following blacklist
      = followers.filter (fun user =>
          !((following.map lower).contains (lower user))
            && !(blacklist.contains (lower user)))
    ∧ to_unfollow following followers whitelist
      = following.filter (fun user =>
          !((followers.map lower).contains (lower user))
            && !(whitelist.contains (lower user)))
    ∧ (∀ u v, u ∈ followers → v ∈ following → lower u = lower v →
        u ∉ to_follow followers following blacklist
          ∧ v ∉ to_unfollow following followers whitelist) := by
  refine ⟨to_follow_eq_filter _ _ _, to_unfollow_eq_filter _ _ _, ?_⟩
  intro u v hu hv huv
  constructor
  · rw [to_follow_eq_filter]
    intro hmem
    rcases List.mem_filter.mp hmem with ⟨-, hp⟩
    have hc : (following.map lower).contains (lower u) = true :=
      (contains_true_iff _ _).mpr (List.mem_map.mpr ⟨v, hv, huv.symm⟩)
    rw [hc] at hp
    simp at hp
  · rw [to_unfollow_eq_filter]
    intro hmem
    rcases List.mem_filter.mp hmem with ⟨-, hp⟩
    have hc : (followers.map lower).contains (lower v) = true :=
      (contains_true_iff _ _).mpr (List.mem_map.mpr ⟨u, hu, huv⟩)
    rw [hc] at hp
    simp at hp

/-- Witness for C3 at the spec's example: `"foo"` follows me, I follow `"Foo"`;
neither direction is actioned. -/
theorem follow_unfollow_candidates_correct_witness :
    "foo" ∉ to_follow ["foo"] ["Foo"] [] ∧ "Foo" ∉ to_unfollow ["Foo"] ["foo"] [] :=
  (follow_unfollow_candidates_correct ["foo"] ["Foo"] [] []).2.2 "foo" "Foo"
    (by decide) (by decide) (by decide)

/-- **C10.** The whitelist has no effect on `to_follow` and the blacklist has no
effect on `to_unfollow`: a whitelisted follower not yet followed back is still a
follow candidate, and a blacklisted non-follower being followed is still an
unfollow candidate. -/
theorem policy_lists_independent
    (followers following w w' b b' : List String) (u : String) :
    (compute_actions followers following w b).1 = (compute_actions followers following w' b).1
    ∧ (compute_actions followers following w b).2 = (compute_actions followers following w b').2
    ∧ (u ∈ followers →
        ((following.map lower).contains (lower u)) = false →
        (b.contains (lower u)) = false →
        u ∈ (compute_actions followers following w b).1)
    ∧ (u ∈ following →
        ((followers.map lower).contains (lower u)) = false →
        (w.contains (lower u)) = false →
        u ∈ (compute_actions followers following w b).2) := by
  refine ⟨rfl, rfl, ?_, ?_⟩
  · intro hu h1 h2
    show u ∈ to_follow followers following b
    rw [to_follow_eq_filter]
    exact List.mem_filter.mpr ⟨hu, by rw [h1, h2]; rfl⟩
  · intro hu h1 h2
    show u ∈ to_unfollow following followers w
    rw [to_unfollow_eq_filter]
    exact List.mem_filter.mpr ⟨hu, by rw [h1, h2]; rfl⟩

/-- Witness for C10: `"alice"` is whitelisted and follows me while I do not
follow back — she is still a follow candidate; `"bob"` is blacklisted and does
not follow me while I follow him — he is still an unfollow candidate. -/
theorem policy_lists_independent_witness :
    "alice" ∈ (compute_actions ["alice"] ["bob"] ["alice"] ["bob"]).1
    ∧ "bob" ∈ (compute_actions ["alice"] ["bob"] ["alice"] ["bob"]).2 :=
  ⟨(policy_lists_independent ["alice"] ["bob"] ["alice"] [] ["bob"] [] "alice").2.2.1
      (by decide) (by decide) (by decide),
   (policy_lists_independent ["alice"] ["bob"] ["alice"] [] ["bob"] [] "bob").2.2.2
      (by decide) (by decide) (by decide)⟩

/-- **C4.** The policy-list loader yields exactly the lower-cased, trimmed lines
that are nonblank and do not start with `"#"`, and yields nothing for an absent
file. -/
theorem load_list_file_correct (lines : List String) (x : String) :
    load_list_file none = []
    ∧ (x ∈ load_list_file (some lines) ↔
        ∃ line, line ∈ lines ∧ (strip line).data.isEmpty = false
          ∧ starts_with_hash line = false ∧ x = lower (strip line)) := by
  refine ⟨rfl, ?_⟩
  simp only [load_list_file, List.mem_map, List.mem_filter]
  constructor
  · rintro ⟨line, ⟨hmem, hp⟩, hx⟩
    rcases Bool.and_eq_true _ _ |>.mp hp with ⟨h1, h2⟩
    exact ⟨line, hmem, by simpa using h1, by simpa using h2, hx.symm⟩
  · rintro ⟨line, hmem, h1, h2, hx⟩
    exact ⟨line, ⟨hmem, by rw [h1, h2]; rfl⟩, hx.symm⟩

/-- Witness for C4 on a concrete file: a padded identifier is trimmed and
lower-cased, comment and blank lines are skipped. -/
theorem load_list_file_correct_witness :
    "alice" ∈ load_list_file (some ["  Alice ", "# comment", "", "bob"]) :=
  (load_list_file_correct ["  Alice ", "# comment", "", "bob"] "alice").2.mpr
    ⟨"  Alice ", by decide, by decide, by decide, by decide⟩

/-! ## The action-execution engine (main.py 231–267) -/

/-- Which kind of remote mutation an attempt is. -/
inductive ActionKind where
  | follow : ActionKind
  | unfollow : ActionKind
deriving DecidableEq, Repr

/-- The mutable state of `sync_followers` during the two action loops:
the realized lists `followed`/`unfollowed`, the shared counter `action_count`,
plus two traces — every attempted remote call in `attempts`, and every drawn
sleep duration in `slept`. -/
structure RunState (α : Type) where
  followed : List String
  unfollowed : List String
  actionCount : Nat
  attempts : List (ActionKind × String)
  slept : List α

/-- The follow loop (main.py 237–250): stop when `action_count` has reached the
cap; otherwise sleep a drawn delay, attempt the follow, and only on success
record the user and increment the shared counter. -/
def followPhase {α : Type} (succ : String → Bool) (delays : Nat → α) (maxA : Nat) :
    List String → RunState α → RunState α
  | [], st => st
  | u :: rest, st =>
      if maxA ≤ st.actionCount then st
      else
        let st1 : RunState α :=
          { st with attempts := st.attempts ++ [(ActionKind.follow, u)],
                    slept := st.slept ++ [delays st.attempts.length] }
        if succ u then
          followPhase succ delays maxA rest
            { st1 with followed := st1.followed ++ [u], actionCount := st1.actionCount + 1 }
        else
          followPhase succ delays maxA rest st1

/-- The unfollow loop (main.py 254–267), sharing the same counter and cap. -/
def unfollowPhase {α : Type} (succ : String → Bool) (delays : Nat → α) (maxA : Nat) :
    List String → RunState α → RunState α
  | [], st => st
  | u :: rest, st =>
      if maxA ≤ st.actionCount then st
      else
        let st1 : RunState α :=
          { st with attempts := st.attempts ++ [(ActionKind.unfollow, u)],
                    slept := st.slept ++ [delays st.attempts.length] }
        if succ u then
          unfollowPhase succ delays maxA rest
            { st1 with unfollowed := st1.unfollowed ++ [u], actionCount := st1.actionCount + 1 }
        else
          unfollowPhase succ delays maxA rest st1

/-- The state at the start of the loops (main.py 231–233). -/
def initState (α : Type) : RunState α := ⟨[], [], 0, [], []⟩

/-- Both loops in order: the follow loop runs first, then the unfollow loop on
the state it leaves behind. -/
def runActions {α : Type} (fsucc usucc : String → Bool) (delays : Nat → α) (maxA : Nat)
    (toF toU : List String) : RunState α :=
  unfollowPhase usucc delays maxA toU (followPhase fsucc delays maxA toF (initState α))

/-! ### Invariants of the two loops -/

theorem followPhase_unfollowed {α : Type} (succ : String → Bool) (delays : Nat → α)
    (maxA : Nat) (l : List String) (st : RunState α) :
    (followPhase succ delays maxA l st).unfollowed = st.unfollowed := by
  induction l generalizing st with
  | nil => rfl
  | cons u rest ih =>
      by_cases h : maxA ≤ st.actionCount
      · simp [followPhase, h]
      · by_cases hs : succ u
        · simp [followPhase, h, hs, ih]
        · simp [followPhase, h, hs, ih]

theorem unfollowPhase_followed {α : Type} (succ : String → Bool) (delays : Nat → α)
    (maxA : Nat) (l : List String) (st : RunState α) :
    (unfollowPhase succ delays maxA l st).followed = st.followed := by
  induction l generalizing st with
  | nil => rfl
  | cons u rest ih =>
      by_cases h : maxA ≤ st.actionCount
      · simp [unfollowPhase, h]
      · by_cases hs : succ u
        · simp [unfollowPhase, h, hs, ih]
        · simp [unfollowPhase, h, hs, ih]

theorem followPhase_count_eq_len {α : Type} (succ : String → Bool) (delays : Nat → α)
    (maxA : Nat) (l : List String) (st : RunState α)
    (h : st.actionCount = st.followed.length + st.unfollowed.length) :
    (followPhase succ delays maxA l st).actionCount
      = (followPhase succ delays maxA l st).followed.length
        + (followPhase succ delays maxA l st).unfollowed.length := by
  induction l generalizing st with
  | nil => exact h
  | cons u rest ih =>
      by_cases hle : maxA ≤ st.actionCount
      · simpa [followPhase, hle] using h
      · by_cases hs : succ u
        · simp only [followPhase, hle, if_false, hs, if_true]
          exact ih _ (by simp [h, Nat.add_right_comm])
        · simp only [followPhase, hle, if_false, hs]
          exact ih _ (by simp [h])

theorem unfollowPhase_count_eq_len {α : Type} (succ : String → Bool) (delays : Nat → α)
    (maxA : Nat) (l : List String) (st : RunState α)
    (h : st.actionCount = st.followed.length + st.unfollowed.length) :
    (unfollowPhase succ delays maxA l st).actionCount
      = (unfollowPhase succ delays maxA l st).followed.length
        + (unfollowPhase succ delays maxA l st).unfollowed.length := by
  induction l generalizing st with
  | nil => exact h
  | cons u rest ih =>
      by_cases hle : maxA ≤ st.actionCount
      · simpa [unfollowPhase, hle] using h
      · by_cases hs : succ u
        · simp only [unfollowPhase, hle, if_false, hs, if_true]
          exact ih _ (by simp [h, Nat.add_assoc])
        · simp only [unfollowPhase, hle, if_false, hs]
          exact ih _ (by simp [h])

theorem followPhase_count_le {α : Type} (succ : String → Bool) (delays : Nat → α)
    (maxA : Nat) (l : List String) (st : RunState α) (h : st.actionCount ≤ maxA) :
    (followPhase succ delays maxA l st).actionCount ≤ maxA := by
  induction l generalizing st with
  | nil => exact h
  | cons u rest ih =>
      by_cases hle : maxA ≤ st.actionCount
      · simpa [followPhase, hle] using h
      · by_cases hs : succ u
        · simp only [followPhase, hle, if_false, hs, if_true]
          exact ih _ (by simpa using Nat.lt_of_not_le hle)
        · simp only [followPhase, hle, if_false, hs]
          exact ih _ h

theorem unfollowPhase_count_le {α : Type} (succ : String → Bool) (delays : Nat → α)
    (maxA : Nat) (l : List String) (st : RunState α) (h : st.actionCount ≤ maxA) :
    (unfollowPhase succ delays maxA l st).actionCount ≤ maxA := by
  induction l generalizing st with
  | nil => exact h
  | cons u rest ih =>
      by_cases hle : maxA ≤ st.actionCount
      · simpa [unfollowPhase, hle] using h
      · by_cases hs : succ u
        · simp only [unfollowPhase, hle, if_false, hs, if_true]
          exact ih _ (by simpa using Nat.lt_of_not_le hle)
        · simp only [unfollowPhase, hle, if_false, hs]
          exact ih _ h

theorem followPhase_attempts {α : Type} (succ : String → Bool) (delays : Nat → α)
    (maxA : Nat) (l : List String) (st : RunState α) :
    ∃ new, (followPhase succ delays maxA l st).attempts = st.attempts ++ new
      ∧ ∀ x ∈ new, x.1 = ActionKind.follow := by
  induction l generalizing st with
  | nil => exact ⟨[], by simp [followPhase], by simp⟩
  | cons u rest ih =>
      by_cases hle : maxA ≤ st.actionCount
      · exact ⟨[], by simp [followPhase, hle], by simp⟩
      · by_cases hs : succ u
        · simp only [followPhase, hle, if_false, hs, if_true]
          obtain ⟨new, hnew, hall⟩ := ih
            { st with attempts := st.attempts ++ [(ActionKind.follow, u)],
                      slept := st.slept ++ [delays st.attempts.length],
                      followed := st.followed ++ [u], actionCount := st.actionCount + 1 }
          refine ⟨(ActionKind.follow, u) :: new, ?_, ?_⟩
          · simpa using hnew
          · intro x hx
            rcases List.mem_cons.mp hx with h | h
            · rw [h]
            · exact hall x h
        · simp only [followPhase, hle, if_false, hs]
          obtain ⟨new, hnew, hall⟩ := ih
            { st with attempts := st.attempts ++ [(ActionKind.follow, u)],
                      slept := st.slept ++ [delays st.attempts.length] }
          refine ⟨(ActionKind.follow, u) :: new, ?_, ?_⟩
          · simpa using hnew
          · intro x hx
            rcases List.mem_cons.mp hx with h | h
            · rw [h]
            · exact hall x h

theorem unfollowPhase_attempts {α : Type} (succ : String → Bool) (delays : Nat → α)
    (maxA : Nat) (l : List String) (st : RunState α) :
    ∃ new, (unfollowPhase succ delays maxA l st).attempts = st.attempts ++ new
      ∧ ∀ x ∈ new, x.1 = ActionKind.unfollow := by
  induction l generalizing st with
  | nil => exact ⟨[], by simp [unfollowPhase], by simp⟩
  | cons u rest ih =>
      by_cases hle : maxA ≤ st.actionCount
      · exact ⟨[], by simp [unfollowPhase, hle], by simp⟩
      · by_cases hs : succ u
        · simp only [unfollowPhase, hle, if_false, hs, if_true]
          obtain ⟨new, hnew, hall⟩ := ih
            { st with attempts := st.attempts ++ [(ActionKind.unfollow, u)],
                      slept := st.slept ++ [delays st.attempts.length],
                      unfollowed := st.unfollowed ++ [u], actionCount := st.actionCount + 1 }
          refine ⟨(ActionKind.unfollow, u) :: new, ?_, ?_⟩
          · simpa using hnew
          · intro x hx
            rcases List.mem_cons.mp hx with h | h
            · rw [h]
            · exact hall x h
        · simp only [unfollowPhase, hle, if_false, hs]
          obtain ⟨new, hnew, hall⟩ := ih
            { st with attempts := st.attempts ++ [(ActionKind.unfollow, u)],
                      slept := st.slept ++ [delays st.attempts.length] }
          refine ⟨(ActionKind.unfollow, u) :: new, ?_, ?_⟩
          · simpa using hnew
          · intro x hx
            rcases List.mem_cons.mp hx with h | h
            · rw [h]
            · exact hall x h

theorem unfollowPhase_stuck {α : Type} (succ : String → Bool) (delays : Nat → α)
    (maxA : Nat) (l : List String) (st : RunState α) (h : maxA ≤ st.actionCount) :
    unfollowPhase succ delays maxA l st = st := by
  cases l with
  | nil => rfl
  | cons u rest => simp [unfollowPhase, h]

/-! ## Claims C1, C2 -/

/-- **C1.** In every run the realized actions satisfy
`len(followed) + len(unfollowed) ≤ maxActionsPerRun`; every follow attempt
precedes every unfollow attempt; and if the shared budget is already exhausted
when the follow phase ends, zero unfollow actions execute. -/
theorem action_cap_and_phase_order {α : Type} (fsucc usucc : String → Bool)
    (delays : Nat → α) (maxA : Nat) (toF toU : List String) :
    (runActions fsucc usucc delays maxA toF toU).followed.length
        + (runActions fsucc usucc delays maxA toF toU).unfollowed.length ≤ maxA
    ∧ (∃ fa ua, (runActions fsucc usucc delays maxA toF toU).attempts = fa ++ ua
        ∧ (∀ x ∈ fa, x.1 = ActionKind.follow) ∧ (∀ x ∈ ua, x.1 = ActionKind.unfollow))
    ∧ (maxA ≤ (followPhase fsucc delays maxA toF (initState α)).actionCount →
        (runActions fsucc usucc delays maxA toF toU).unfollowed = []
          ∧ ∀ x ∈ (runActions fsucc usucc delays maxA toF toU).attempts,
              x.1 = ActionKind.follow) := by
  have hf_eq := followPhase_count_eq_len fsucc delays maxA toF (initState α) rfl
  have hr_eq := unfollowPhase_count_eq_len usucc delays maxA toU _ hf_eq
  have hf_le := followPhase_count_le fsucc delays maxA toF (initState α) (Nat.zero_le _)
  have hr_le := unfollowPhase_count_le usucc delays maxA toU _ hf_le
  refine ⟨?_, ?_, ?_⟩
  · simp only [runActions]
    rw [← hr_eq]
    exact hr_le
  · simp only [runActions]
    obtain ⟨fa, hfa, hfall⟩ := followPhase_attempts fsucc delays maxA toF (initState α)
    obtain ⟨ua, hua, huall⟩ := unfollowPhase_attempts usucc delays maxA toU
      (followPhase fsucc delays maxA toF (initState α))
    exact ⟨fa, ua, by rw [hua, hfa]; simp [initState], hfall, huall⟩
  · intro h
    have hstuck := unfollowPhase_stuck usucc delays maxA toU _ h
    simp only [runActions]
    rw [hstuck]
    refine ⟨followPhase_unfollowed fsucc delays maxA toF (initState α), ?_⟩
    obtain ⟨fa, hfa, hfall⟩ := followPhase_attempts fsucc delays maxA toF (initState α)
    intro x hx
    rw [hfa] at hx
    rcases List.mem_append.mp hx with h' | h'
    · simp [initState] at h'
    · exact hfall x h'

/-- Witness for C1: with cap 1 and two successful follow candidates, the follow
phase exhausts the budget, at most one action is realized, and no unfollow of
the candidate `"c"` happens. -/
theorem action_cap_and_phase_order_witness :
    (runActions (fun _ => true) (fun _ => true) (fun _ => (0 : Nat)) 1 ["a", "b"]
        ["c"]).followed.length
      + (runActions (fun _ => true) (fun _ => true) (fun _ => (0 : Nat)) 1 ["a", "b"]
          ["c"]).unfollowed.length ≤ 1
    ∧ (runActions (fun _ => true) (fun _ => true) (fun _ => (0 : Nat)) 1 ["a", "b"]
        ["c"]).unfollowed = [] := by
  have h := action_cap_and_phase_order (fun _ => true) (fun _ => true)
    (fun _ => (0 : Nat)) 1 ["a", "b"] ["c"]
  exact ⟨h.1, (h.2.2 (by decide)).1⟩

/-- **C2, counterexample.** The claim says a failed attempt still consumes one
unit of the budget, so with followers `[a,b,c]`, nobody followed, and cap 2, at
most 2 follow attempts would occur.  In the code `action_count` is incremented
only on success (main.py 245–248), so when every remote call fails all three
candidates are attempted. -/
theorem failed_attempts_do_not_consume_budget :
    to_follow ["a", "b", "c"] [] [] = ["a", "b", "c"]
    ∧ ¬ ((runActions (fun _ => false) (fun _ => false) (fun _ => (0 : Nat)) 2
          (to_follow ["a", "b", "c"] [] [])
          (to_unfollow [] ["a", "b", "c"] [])).attempts.length ≤ 2) := by
  constructor
  · decide
  · decide

/-- **C2, amended.** Each *successful* follow or unfollow consumes one unit of
the shared budget; a failed attempt consumes nothing, so the shared counter
always equals the number of realized actions and stays within the cap, and in
the cap-exhaustion scenario with all calls succeeding exactly 2 attempts occur. -/
theorem budget_counts_successes_only {α : Type} (fsucc usucc : String → Bool)
    (delays : Nat → α) (maxA : Nat) (toF toU : List String) :
    (runActions fsucc usucc delays maxA toF toU).actionCount
        = (runActions fsucc usucc delays maxA toF toU).followed.length
          + (runActions fsucc usucc delays maxA toF toU).unfollowed.length
    ∧ (runActions fsucc usucc delays maxA toF toU).actionCount ≤ maxA
    ∧ (runActions (fun _ => true) (fun _ => true) (fun _ => (0 : Nat)) 2
          (to_follow ["a", "b", "c"] [] [])
          (to_unfollow [] ["a", "b", "c"] [])).attempts.length = 2 := by
  refine ⟨?_, ?_, by decide⟩
  · simp only [runActions]
    exact unfollowPhase_count_eq_len usucc delays maxA toU _
      (followPhase_count_eq_len fsucc delays maxA toF (initState α) rfl)
  · simp only [runActions]
    exact unfollowPhase_count_le usucc delays maxA toU _
      (followPhase_count_le fsucc delays maxA toF (initState α) (Nat.zero_le _))

/-! ## Claim C9: the drawn delays never influence the outcome -/

theorem followPhase_delays_agree {α β : Type} (succ : String → Bool)
    (d1 : Nat → α) (d2 : Nat → β) (maxA : Nat) (l : List String)
    (st1 : RunState α) (st2 : RunState β)
    (h1 : st1.followed = st2.followed) (h2 : st1.unfollowed = st2.unfollowed)
    (h3 : st1.actionCount = st2.actionCount) (h4 : st1.attempts = st2.attempts) :
    (followPhase succ d1 maxA l st1).followed = (followPhase succ d2 maxA l st2).followed
    ∧ (followPhase succ d1 maxA l st1).unfollowed = (followPhase succ d2 maxA l st2).unfollowed
    ∧ (followPhase succ d1 maxA l st1).actionCount
        = (followPhase succ d2 maxA l st2).actionCount
    ∧ (followPhase succ d1 maxA l st1).attempts = (followPhase succ d2 maxA l st2).attempts := by
  induction l generalizing st1 st2 with
  | nil => exact ⟨h1, h2, h3, h4⟩
  | cons u rest ih =>
      by_cases hle : maxA ≤ st1.actionCount
      · have hle2 : maxA ≤ st2.actionCount := h3 ▸ hle
        simp only [followPhase, hle, hle2, if_true]
        exact ⟨h1, h2, h3, h4⟩
      · have hle2 : ¬ maxA ≤ st2.actionCount := h3 ▸ hle
        by_cases hs : succ u
        · simp only [followPhase, hle, hle2, if_false, hs, if_true]
          exact ih _ _ (by simp [h1]) (by simp [h2]) (by simp [h3]) (by simp [h4])
        · simp only [followPhase, hle, hle2, if_false, hs]
          exact ih _ _ (by simp [h1]) (by simp [h2]) (by simp [h3]) (by simp [h4])

theorem unfollowPhase_delays_agree {α β : Type} (succ : String → Bool)
    (d1 : Nat → α) (d2 : Nat → β) (maxA : Nat) (l : List String)
    (st1 : RunState α) (st2 : RunState β)
    (h1 : st1.followed = st2.followed) (h2 : st1.unfollowed = st2.unfollowed)
    (h3 : st1.actionCount = st2.actionCount) (h4 : st1.attempts = st2.attempts) :
    (unfollowPhase succ d1 maxA l st1).followed = (unfollowPhase succ d2 maxA l st2).followed
    ∧ (unfollowPhase succ d1 maxA l st1).unfollowed
        = (unfollowPhase succ d2 maxA l st2).unfollowed
    ∧ (unfollowPhase succ d1 maxA l st1).actionCount
        = (unfollowPhase succ d2 maxA l st2).actionCount
    ∧ (unfollowPhase succ d1 maxA l st1).attempts
        = (unfollowPhase succ d2 maxA l st2).attempts := by
  induction l generalizing st1 st2 with
  | nil => exact ⟨h1, h2, h3, h4⟩
  | cons u rest ih =>
      by_cases hle : maxA ≤ st1.actionCount
      · have hle2 : maxA ≤ st2.actionCount := h3 ▸ hle
        simp only [unfollowPhase, hle, hle2, if_true]
        exact ⟨h1, h2, h3, h4⟩
      · have hle2 : ¬ maxA ≤ st2.actionCount := h3 ▸ hle
        by_cases hs : succ u
        · simp only [unfollowPhase, hle, hle2, if_false, hs, if_true]
          exact ih _ _ (by simp [h1]) (by simp [h2]) (by simp [h3]) (by simp [h4])
        · simp only [unfollowPhase, hle, hle2, if_false, hs]
          exact ih _ _ (by simp [h1]) (by simp [h2]) (by simp [h3]) (by simp [h4])

/-- **C9.** For fixed candidate lists and a fixed success mapping, the realized
`followed`/`unfollowed` lists — indeed the whole attempt sequence — are the
same for any two delay streams (even streams of different types): the random
sleeps influence only the recorded pacing (`slept`), never the outcome. -/
theorem delays_do_not_affect_actions {α β : Type} (fsucc usucc : String → Bool)
    (d1 : Nat → α) (d2 : Nat → β) (maxA : Nat) (toF toU : List String) :
    (runActions fsucc usucc d1 maxA toF toU).followed
        = (runActions fsucc usucc d2 maxA toF toU).followed
    ∧ (runActions fsucc usucc d1 maxA toF toU).unfollowed
        = (runActions fsucc usucc d2 maxA toF toU).unfollowed
    ∧ (runActions fsucc usucc d1 maxA toF toU).attempts
        = (runActions fsucc usucc d2 maxA toF toU).attempts := by
  simp only [runActions]
  obtain ⟨f1, f2, f3, f4⟩ := followPhase_delays_agree fsucc d1 d2 maxA toF
    (initState α) (initState β) rfl rfl rfl rfl
  obtain ⟨g1, g2, g3, g4⟩ := unfollowPhase_delays_agree usucc d1 d2 maxA toU
    _ _ f1 f2 f3 f4
  exact ⟨g1, g2, g4⟩

/-! ## Claim C5: history append and truncation (main.py 269–283) -/

/-- One record in `history.json`: `{"user": ..., "timestamp": ...}`. -/
structure ActionRecord where
  user : String
  timestamp : String
deriving DecidableEq, Repr

/-- The history document: `{"follows": [...], "unfollows": [...], "last_run": ...}`. -/
structure History where
  follows : List ActionRecord
  unfollows : List ActionRecord
  last_run : Option String
deriving DecidableEq, Repr

/-- Python `lst[-n:]`: the newest `n` entries, the whole list when shorter. -/
def lastN {α : Type} (n : Nat) (l : List α) : List α := l.drop (l.length - n)

theorem lastN_length {α : Type} (n : Nat) (l : List α) :
    (lastN n l).length = min n l.length := by
  simp only [lastN, List.length_drop]
  omega

theorem lastN_suffix {α : Type} (n : Nat) (l : List α) : ∃ d, d ++ lastN n l = l :=
  ⟨l.take (l.length - n), List.take_append_drop _ _⟩

/-- The history update of `sync_followers` (main.py 273–281): append one record
per realized follow and unfollow, set `last_run`, then keep only the last 1000
entries of each list. -/
def update_history (h : History) (followed unfollowed : List String) (now : String) : History :=
  { follows := lastN 1000 (h.follows ++ followed.map (fun u => ActionRecord.mk u now)),
    unfollows := lastN 1000 (h.unfollows ++ unfollowed.map (fun u => ActionRecord.mk u now)),
    last_run := some now }

/-- **C5.** The history update appends one record per followed and per
unfollowed identifier, sets `last_run` to the run timestamp, and keeps each
sequence a suffix — the newest entries — of the appended sequence, of length
exactly `min 1000` of the appended length, so growing beyond 1000 retains the
most recent 1000 with the oldest dropped from the front. -/
theorem update_history_correct (h : History) (followed unfollowed : List String)
    (now : String) :
    (update_history h followed unfollowed now).last_run = some now
    ∧ (∃ dropped, dropped ++ (update_history h followed unfollowed now).follows
        = h.follows ++ followed.map (fun u => ActionRecord.mk u now))
    ∧ (update_history h followed unfollowed now).follows.length
        = min 1000 (h.follows.length + followed.length)
    ∧ (∃ dropped, dropped ++ (update_history h followed unfollowed now).unfollows
        = h.unfollows ++ unfollowed.map (fun u => ActionRecord.mk u now))
    ∧ (update_history h followed unfollowed now).unfollows.length
        = min 1000 (h.unfollows.length + unfollowed.length) := by
  refine ⟨rfl, ?_, ?_, ?_, ?_⟩
  · simp only [update_history]
    exact lastN_suffix 1000 _
  · simp only [update_history, lastN_length, List.length_append, List.length_map]
  · simp only [update_history]
    exact lastN_suffix 1000 _
  · simp only [update_history, lastN_length, List.length_append, List.length_map]

/-! ## Claim C6: pagination (main.py 47–75) -/

/-- One HTTP response of the paginated listing endpoint: the status code and
the page's user logins (the `user["login"]` projection of the JSON body). -/
structure Page where
  status : Nat
  data : List String
deriving DecidableEq, Repr

/-- The `get_all_pages` loop (main.py 47–75), driven by the sequence of
responses for pages 1, 2, …; `per_page = 100`.  A non-200 status stops
pagination contributing nothing; an empty page stops contributing nothing; a
short page (fewer than 100 entries) is accumulated and stops; a full page is
accumulated and the next page is fetched. -/
def get_all_pages : List Page → List String
  | [] => []
  | p :: rest =>
      if p.status ≠ 200 then []
      else if p.data.isEmpty then []
      else if p.data.length < 100 then p.data
      else p.data ++ get_all_pages rest

theorem get_all_pages_cons (p : Page) (rest : List Page) :
    get_all_pages (p :: rest)
      = if p.status ≠ 200 then []
        else if p.data.isEmpty then []
        else if p.data.length < 100 then p.data
        else p.data ++ get_all_pages rest := rfl

/-- **C6.** After any run of full pages, the loop stops at the first terminal
page — non-success status, empty page, or short page — returning the partial
list accumulated so far (the joined full pages, plus the terminal page's data
when its status was a success); the responses after the terminal page are never
consulted, and no exception is propagated (the result is always a plain list). -/
theorem get_all_pages_stops_at_first_terminal (full : List (List String))
    (hfull : ∀ d ∈ full, d.length = 100) (t : Page) (rest : List Page)
    (ht : t.status ≠ 200 ∨ t.data.length < 100) :
    get_all_pages (full.map (fun d => Page.mk 200 d) ++ t :: rest)
      = full.flatten ++ (if t.status = 200 then t.data else []) := by
  induction full with
  | nil =>
      simp only [List.map_nil, List.nil_append, List.flatten_nil]
      rw [get_all_pages_cons]
      by_cases hs : t.status = 200
      · have hlt : t.data.length < 100 := ht.resolve_left (not_not_intro hs)
        rw [if_neg (not_not_intro hs), if_pos hs]
        by_cases he : t.data.isEmpty
        · have hnil : t.data = [] := by simpa using he
          rw [if_pos he, hnil]
        · rw [if_neg he, if_pos hlt]
      · rw [if_pos hs, if_neg hs]
  | cons d ds ih =>
      have hd : d.length = 100 := hfull d (by simp)
      have hds : ∀ x ∈ ds, x.length = 100 := fun x hx => hfull x (by simp [hx])
      have hne : d.isEmpty = false := by
        cases d with
        | nil => simp at hd
        | cons a as => rfl
      rw [List.map_cons, List.cons_append, List.flatten_cons, get_all_pages_cons]
      rw [if_neg (by simp), if_neg (by simp [hne]), if_neg (by simp [hd]), ih hds,
        List.append_assoc]

/-- Witness for C6: one full page of 100 entries, then a server error; the
result is the partial list of the full page, and the page after the error is
never reached. -/
theorem get_all_pages_stops_witness :
    get_all_pages ([List.replicate 100 "u"].map (fun d => Page.mk 200 d)
        ++ Page.mk 500 ["x"] :: [Page.mk 200 ["y"]])
      = [List.replicate 100 "u"].flatten ++ (if (500 : Nat) = 200 then ["x"] else []) :=
  get_all_pages_stops_at_first_terminal [List.replicate 100 "u"] (by decide)
    (Page.mk 500 ["x"]) [Page.mk 200 ["y"]] (by decide)

/-! ## Claim C7: the Telegram report (main.py 145–175)

The message is modelled as its list of lines: each `message += f"...\n"` of the
Python code contributes one line, a bare `message += "\n"` contributes `""`. -/

/-- One enumerated identifier line of the report. -/
def entry_line (u : String) : String := "  • @" ++ u

/-- The fixed head of every report: title, timestamp and the stats block. -/
def report_header (now : String) (stats : Nat × Nat) : List String :=
  ["🔄 <b>GitHub Follower Sync Report</b>",
   "📅 " ++ now,
   "",
   "📊 <b>Stats:</b>",
   "  • Followers: " ++ toString stats.1,
   "  • Following: " ++ toString stats.2,
   ""]

/-- One identifier section of the report (main.py 156–170): emitted only when
the list is non-empty; shows the first 10 entries and an `... and N more` line
beyond that, then a blank separator. -/
def report_section (title : String) (users : List String) : List String :=
  if users.isEmpty then []
  else
    [title ++ toString users.length ++ "):</b>"]
      ++ (users.take 10).map entry_line
      ++ (if 10 < users.length then
            ["  ... and " ++ toString (users.length - 10) ++ " more"] else [])
      ++ [""]

/-- `format_telegram_report` (main.py 145–175), as its list of lines. -/
def format_telegram_report (now : String) (followed unfollowed : List String)
    (stats : Nat × Nat) : List String :=
  report_header now stats
    ++ report_section "✅ <b>Followed Back (" followed
    ++ report_section "❌ <b>Unfollowed (" unfollowed
    ++ (if followed.isEmpty && unfollowed.isEmpty then
          ["✨ No changes needed - everything is in sync!"] else [])

/-- **C7.** Every report carries the timestamp and the followers/following
counts; a non-empty list contributes its header immediately followed by exactly
its first 10 entries, with an `... and N more` line present when the list is
longer than 10; when both lists are empty the report is the fixed head plus a
single no-changes line; and 12 followed with 0 unfollowed yields exactly the
head, the followed header, the 10 entries, the `... and 2 more` line and the
separator — no unfollowed section. -/
theorem format_telegram_report_correct (now : String)
    (followed unfollowed : List String) (stats : Nat × Nat) :
    ("📅 " ++ now) ∈ format_telegram_report now followed unfollowed stats
    ∧ ("  • Followers: " ++ toString stats.1)
        ∈ format_telegram_report now followed unfollowed stats
    ∧ ("  • Following: " ++ toString stats.2)
        ∈ format_telegram_report now followed unfollowed stats
    ∧ (followed ≠ [] → ∃ s t, format_telegram_report now followed unfollowed stats
        = s ++ ("✅ <b>Followed Back (" ++ toString followed.length ++ "):</b>")
            :: ((followed.take 10).map entry_line ++ t))
    ∧ (10 < followed.length →
        ("  ... and " ++ toString (followed.length - 10) ++ " more")
          ∈ format_telegram_report now followed unfollowed stats)
    ∧ (unfollowed ≠ [] → ∃ s t, format_telegram_report now followed unfollowed stats
        = s ++ ("❌ <b>Unfollowed (" ++ toString unfollowed.length ++ "):</b>")
            :: ((unfollowed.take 10).map entry_line ++ t))
    ∧ (10 < unfollowed.length →
        ("  ... and " ++ toString (unfollowed.length - 10) ++ " more")
          ∈ format_telegram_report now followed unfollowed stats)
    ∧ (followed = [] → unfollowed = [] →
        format_telegram_report now followed unfollowed stats
          = report_header now stats ++ ["✨ No changes needed - everything is in sync!"])
    ∧ (followed.length = 12 → unfollowed = [] →
        format_telegram_report now followed unfollowed stats
          = report_header now stats
            ++ ["✅ <b>Followed Back (" ++ toString (12 : Nat) ++ "):</b>"]
            ++ (followed.take 10).map entry_line
            ++ ["  ... and " ++ toString (2 : Nat) ++ " more", ""]) := by
  refine ⟨?_, ?_, ?_, ?_, ?_, ?_, ?_, ?_, ?_⟩
  · simp [format_telegram_report, report_header]
  · simp [format_telegram_report, report_header]
  · simp [format_telegram_report, report_header]
  · intro hf
    have hne : followed.isEmpty = false := by
      cases followed with
      | nil => exact absurd rfl hf
      | cons a l => rfl
    refine ⟨report_header now stats,
      (if 10 < followed.length then
          ["  ... and " ++ toString (followed.length - 10) ++ " more"] else [])
        ++ [""]
        ++ report_section "❌ <b>Unfollowed (" unfollowed
        ++ (if followed.isEmpty && unfollowed.isEmpty then
              ["✨ No changes needed - everything is in sync!"] else []), ?_⟩
    simp [format_telegram_report, report_section, hne, List.append_assoc]
  · intro h10
    have hne : followed.isEmpty = false := by
      cases followed with
      | nil => simp at h10
      | cons a l => rfl
    simp [format_telegram_report, report_section, hne, h10]
  · intro hu
    have hne : unfollowed.isEmpty = false := by
      cases unfollowed with
      | nil => exact absurd rfl hu
      | cons a l => rfl
    refine ⟨report_header now stats ++ report_section "✅ <b>Followed Back (" followed,
      (if 10 < unfollowed.length then
          ["  ... and " ++ toString (unfollowed.length - 10) ++ " more"] else [])
        ++ [""]
        ++ (if followed.isEmpty && unfollowed.isEmpty then
              ["✨ No changes needed - everything is in sync!"] else []), ?_⟩
    simp only [format_telegram_report]
    rw [show report_section "❌ <b>Unfollowed (" unfollowed
        = ["❌ <b>Unfollowed (" ++ toString unfollowed.length ++ "):</b>"]
          ++ (unfollowed.take 10).map entry_line
          ++ (if 10 < unfollowed.length then
                ["  ... and " ++ toString (unfollowed.length - 10) ++ " more"] else [])
          ++ [""] from by simp [report_section, hne]]
    simp [List.append_assoc]
  · intro h10
    have hne : unfollowed.isEmpty = false := by
      cases unfollowed with
      | nil => simp at h10
      | cons a l => rfl
    simp [format_telegram_report, report_section, hne, h10]
  · rintro rfl rfl
    simp [format_telegram_report, report_section]
  · intro h12 hu
    subst hu
    have hne : followed.isEmpty = false := by
      cases followed with
      | nil => simp at h12
      | cons a l => rfl
    have h10 : 10 < followed.length := by omega
    simp [format_telegram_report, report_section, hne, h10, h12]

/-- Witness for C7 at the spec's 12-followed / 0-unfollowed example. -/
theorem format_telegram_report_correct_witness :
    format_telegram_report "2025-01-01 00:00:00"
        ["u1", "u2", "u3", "u4", "u5", "u6", "u7", "u8", "u9", "u10", "u11", "u12"]
        [] (12, 34)
      = report_header "2025-01-01 00:00:00" (12, 34)
        ++ ["✅ <b>Followed Back (" ++ toString (12 : Nat) ++ "):</b>"]
        ++ ((["u1", "u2", "u3", "u4", "u5", "u6", "u7", "u8", "u9", "u10", "u11",
              "u12"] : List String).take 10).map entry_line
        ++ ["  ... and " ++ toString (2 : Nat) ++ " more", ""] :=
  (format_telegram_report_correct "2025-01-01 00:00:00"
      ["u1", "u2", "u3", "u4", "u5", "u6", "u7", "u8", "u9", "u10", "u11", "u12"]
      [] (12, 34)).2.2.2.2.2.2.2.2 rfl rfl

/-! ## Claim C8: notification dispatch (main.py 125–143, 290–297) -/

/-- `send_telegram_message` (main.py 125–143): with missing bot token or chat
id (Python-falsy env values) it logs and returns `False` without sending;
otherwise the POST result decides the outcome, an exception being caught and
returned as `False`. -/
def send_telegram_message (botToken chatId : Option String)
    (postStatus : Except String Nat) : Bool :=
  if !truthy botToken || !truthy chatId then false
  else
    match postStatus with
    | Except.ok code => code == 200
    | Except.error _ => false

/-- The outcome of one `sync_followers` run that the claims observe. -/
structure SyncOutcome where
  followed : List String
  unfollowed : List String
  history : History
  notifyInvoked : Bool
  notifySent : Bool

/-- The tail of `sync_followers` (main.py 208–297): compute the candidates, run
the two action loops, update the history, and invoke the notification send iff
at least one action was realized (`if followed or unfollowed:`). -/
def sync_run {α : Type} (followers following whitelist blacklist : List String)
    (fsucc usucc : String → Bool) (delays : Nat → α) (maxA : Nat)
    (hist : History) (now : String) (botToken chatId : Option String)
    (postStatus : Except String Nat) : SyncOutcome :=
  let st := runActions fsucc usucc delays maxA
    (to_follow followers following blacklist)
    (to_unfollow following followers whitelist)
  { followed := st.followed,
    unfollowed := st.unfollowed,
    history := update_history hist st.followed st.unfollowed now,
    notifyInvoked := !st.followed.isEmpty || !st.unfollowed.isEmpty,
    notifySent := (!st.followed.isEmpty || !st.unfollowed.isEmpty)
      && send_telegram_message botToken chatId postStatus }

/-- **C8.** The notification send is invoked iff at least one action was
realized; with a missing bot token or chat id the send is a no-op returning
`false` rather than failing; and an uninvoked send means nothing was sent. -/
theorem notification_dispatch_correct {α : Type}
    (followers following whitelist blacklist : List String)
    (fsucc usucc : String → Bool) (delays : Nat → α) (maxA : Nat)
    (hist : History) (now : String) (botToken chatId : Option String)
    (postStatus : Except String Nat) :
    ((sync_run followers following whitelist blacklist fsucc usucc delays maxA
        hist now botToken chatId postStatus).notifyInvoked = true ↔
      ((sync_run followers following whitelist blacklist fsucc usucc delays maxA
          hist now botToken chatId postStatus).followed ≠ []
        ∨ (sync_run followers following whitelist blacklist fsucc usucc delays maxA
            hist now botToken chatId postStatus).unfollowed ≠ []))
    ∧ (truthy botToken = false →
        send_telegram_message botToken chatId postStatus = false)
    ∧ (truthy chatId = false →
        send_telegram_message botToken chatId postStatus = false)
    ∧ ((sync_run followers following whitelist blacklist fsucc usucc delays maxA
          hist now botToken chatId postStatus).notifyInvoked = false →
        (sync_run followers following whitelist blacklist fsucc usucc delays maxA
            hist now botToken chatId postStatus).notifySent = false) := by
  refine ⟨?_, ?_, ?_, ?_⟩
  · simp [sync_run]
  · intro ht
    simp [send_telegram_message, ht]
  · intro ht
    simp [send_telegram_message, ht]
  · simp only [sync_run]
    intro hh
    simp only [hh, Bool.false_and]

/-- Witness for C8: an unconfigured bot token makes the send a no-op even with
a reachable chat and a successful POST status. -/
theorem notification_dispatch_correct_witness :
    send_telegram_message none (some "42") (Except.ok 200) = false :=
  (notification_dispatch_correct [] [] [] [] (fun _ => true) (fun _ => true)
      (fun _ => (0 : Nat)) 10 (History.mk [] [] none) "t" none (some "42")
      (Except.ok 200)).2.1 rfl
